import Mathlib

/-!
Verification of the ZenCode agent-orchestration and change-staging engine.

The definitions below are a shallow embedding of the Python sources:
  zencode/tools/file_manager.py  (file_write, file_patch, file_delete, ToolResult)
  zencode/diff/engine.py         (FileDiff, DiffSet, DiffTracker, DiffReviewer)
  zencode/core.py                (parse_build_plan, Memory, _run_agent, execute_build)
  zencode/config.py              (the chat_history_limit validation rule)
  zencode/agents/__init__.py     (the agent registry names)

Python strings are modelled as Lean `String` (lists of characters, ASCII
character classes for the `str.strip` / `str.lower` / regex character sets
the code uses).  The on-disk filesystem is modelled as a finite map from
component-list paths to file contents plus a set of directories.  Fallible
or stateful code is explicit state passing.
-/

/- ── Python string helpers (ASCII semantics of str.strip / str.lower / re) ── -/

/-- ASCII whitespace, matching Python `str.strip` and the regex class. -/
def pyIsSpace (c : Char) : Bool :=
  c = ' ' || c = '\t' || c = '\n' || c = '\r' || c = Char.ofNat 11 || c = Char.ofNat 12

/-- Python `str.strip()`: drop leading and trailing whitespace. -/
def pyStrip (s : String) : String :=
  String.mk (((s.data.dropWhile pyIsSpace).reverse.dropWhile pyIsSpace).reverse)

/-- Python `str.lower()` restricted to ASCII letters. -/
def pyLower (s : String) : String :=
  String.mk (s.data.map Char.toLower)

/-- `chunkLeads pat l` is true when `pat` occurs at the very start of `l`. -/
def chunkLeads : List Char → List Char → Bool
  | [], _ => true
  | _ :: _, [] => false
  | a :: as, b :: bs => a = b && chunkLeads as bs

/-- Python `pat in l` (substring containment). -/
def occursIn (pat : List Char) : List Char → Bool
  | [] => chunkLeads pat []
  | c :: t => chunkLeads pat (c :: t) || occursIn pat t

/-- String-level substring containment, Python `old_str in content`. -/
def strOccurs (pat s : String) : Bool :=
  occursIn pat.data s.data

/-- Python `s.replace(old, new, 1)`: replace the first occurrence only. -/
def replFirst (old new : List Char) : List Char → List Char
  | [] => if old = [] then new else []
  | c :: t =>
      if chunkLeads old (c :: t) then new ++ List.drop old.length (c :: t)
      else c :: replFirst old new t

/-- String-level first-occurrence replacement. -/
def strReplaceFirst (s old new : String) : String :=
  String.mk (replFirst old.data new.data s.data)

/- ── Filesystem model ── -/

/-- A filesystem path as a list of components. -/
abbrev FPath := List String

/-- `listLeads p q` is true when path `p` is an initial segment of path `q`. -/
def listLeads : FPath → FPath → Bool
  | [], _ => true
  | _ :: _, [] => false
  | a :: as, b :: bs => a = b && listLeads as bs

/-- The on-disk state: a finite map of files and the set of directories. -/
structure FS where
  files : List (FPath × String)
  dirs  : List FPath
deriving DecidableEq

/-- Content of the file at `p`, if present. -/
def FS.read (fs : FS) (p : FPath) : Option String :=
  (fs.files.find? (fun e => decide (e.1 = p))).map (fun e => e.2)

/-- Remove the file entry at `p`. -/
def FS.removeFile (fs : FS) (p : FPath) : FS :=
  { fs with files := fs.files.filter (fun e => decide (e.1 ≠ p)) }

/-- The chain of proper parents of `p`: its nonempty strict initial segments. -/
def parentChain (p : FPath) : List FPath :=
  (List.range p.length).filterMap (fun k => if 1 ≤ k then some (p.take k) else none)

/-- `target.parent.mkdir(parents=True, exist_ok=True)`. -/
def FS.mkdirParents (fs : FS) (p : FPath) : FS :=
  { fs with dirs := fs.dirs ++ parentChain p }

/-- Overwrite (or create) the file at `p` with content `c`. -/
def FS.writeFile (fs : FS) (p : FPath) (c : String) : FS :=
  { fs with files := (p, c) :: fs.files.filter (fun e => decide (e.1 ≠ p)) }

/-- `shutil.rmtree`: remove directory `p` and everything beneath it. -/
def FS.rmtree (fs : FS) (p : FPath) : FS :=
  { files := fs.files.filter (fun e => !(listLeads p e.1)),
    dirs  := fs.dirs.filter (fun d => !(listLeads p d)) }

/- ── ToolResult (tools/file_manager.py) ── -/

/-- The uniform result record every tool returns. -/
structure ToolResult where
  success  : Bool
  output   : String
  error    : String
  metadata : List (String × String)
deriving DecidableEq

/- ── Diff staging data model (diff/engine.py) ── -/

/-- A proposed change to one file. -/
structure FileDiff where
  path        : FPath
  old_content : String
  new_content : String
  is_new      : Bool
  is_delete   : Bool
deriving DecidableEq

/-- A collection of file diffs from one agent action. -/
structure DiffSet where
  diffs            : List FileDiff
  agent_name       : String
  task_description : String
deriving DecidableEq

/-- `DiffSet.add` appends a diff, preserving issue order. -/
def DiffSet.add (ds : DiffSet) (d : FileDiff) : DiffSet :=
  { ds with diffs := ds.diffs ++ [d] }

/-- The tracker that intercepts writes while active. -/
structure DiffTracker where
  workspace : FPath
  pending   : DiffSet
  active    : Bool
deriving DecidableEq

/-- `DiffTracker.intercept_write`: capture the proposed write as a `FileDiff`
appended to the pending set and return a synthetic staged-success result.
The filesystem is only read, never written. -/
def DiffTracker.intercept_write (tr : DiffTracker) (fs : FS) (path : FPath)
    (content : String) (mode : String) : DiffTracker × ToolResult :=
  let target := tr.workspace ++ path
  let oldContent := (fs.read target).getD ""
  let isNew := (fs.read target).isNone
  let newContent := if mode = "append" then oldContent ++ content else content
  let diff : FileDiff :=
    { path := path, old_content := oldContent, new_content := newContent,
      is_new := isNew, is_delete := false }
  ({ tr with pending := tr.pending.add diff },
   { success := true, output := "[staged] pending review", error := "",
     metadata := [("staged", "True")] })

/- ── File tools (tools/file_manager.py) ── -/

/-- Process-wide tool state: the disk plus the optional global diff tracker. -/
structure SysState where
  fs      : FS
  tracker : Option DiffTracker
deriving DecidableEq

/-- `file_write`: if a tracker is active, intercept; otherwise create parent
directories and write (or append) on disk. -/
def file_write (ws : FPath) (s : SysState) (path : FPath) (content : String)
    (mode : String) : SysState × ToolResult :=
  match s.tracker with
  | some tr =>
    if tr.active then
      let (tr2, res) := tr.intercept_write s.fs path content mode
      ({ s with tracker := some tr2 }, res)
    else
      let p := ws ++ path
      let fs1 := s.fs.mkdirParents p
      let newContent :=
        if mode = "append" then ((fs1.read p).getD "") ++ content else content
      ({ s with fs := fs1.writeFile p newContent },
       { success := true, output := "wrote", error := "", metadata := [] })
  | none =>
      let p := ws ++ path
      let fs1 := s.fs.mkdirParents p
      let newContent :=
        if mode = "append" then ((fs1.read p).getD "") ++ content else content
      ({ s with fs := fs1.writeFile p newContent },
       { success := true, output := "wrote", error := "", metadata := [] })

/-- `file_patch`: fail without effect when the file is missing or `old_str`
does not occur; otherwise compute the patched content and either stage it
(tracker active) or write it to disk. -/
def file_patch (ws : FPath) (s : SysState) (path : FPath) (old_str new_str : String) :
    SysState × ToolResult :=
  let p := ws ++ path
  match s.fs.read p with
  | none => (s, { success := false, output := "", error := "Not found", metadata := [] })
  | some content =>
    if strOccurs old_str content then
      let newContent := strReplaceFirst content old_str new_str
      match s.tracker with
      | some tr =>
        if tr.active then
          let (tr2, res) := tr.intercept_write s.fs path newContent "write"
          ({ s with tracker := some tr2 }, res)
        else
          ({ s with fs := s.fs.writeFile p newContent },
           { success := true, output := "patched", error := "", metadata := [] })
      | none =>
          ({ s with fs := s.fs.writeFile p newContent },
           { success := true, output := "patched", error := "", metadata := [] })
    else
      (s, { success := false, output := "", error := "String not found", metadata := [] })

/-- `file_delete`: the source never consults the diff tracker here — an
existing file is unlinked and an existing directory removed recursively,
directly on disk; a missing path is a failure. -/
def file_delete (ws : FPath) (s : SysState) (path : FPath) : SysState × ToolResult :=
  let p := ws ++ path
  if p ∈ s.fs.dirs then
    ({ s with fs := s.fs.rmtree p },
     { success := true, output := "Deleted directory", error := "", metadata := [] })
  else if (s.fs.read p).isSome then
    ({ s with fs := s.fs.removeFile p },
     { success := true, output := "Deleted", error := "", metadata := [] })
  else
    (s, { success := false, output := "", error := "Not found", metadata := [] })

/- ── DiffReviewer (diff/engine.py) ── -/

/-- `DiffReviewer._apply_diff`: write an accepted diff to disk — delete the
target if the diff is a deletion (no-op when absent), otherwise create
parent directories and write `new_content`. -/
def apply_diff (ws : FPath) (fs : FS) (d : FileDiff) : FS :=
  let target := ws ++ d.path
  if d.is_delete then
    if (fs.read target).isSome then fs.removeFile target else fs
  else
    (fs.mkdirParents target).writeFile target d.new_content

/-- `DiffReviewer._apply_all`. -/
def apply_all (ws : FPath) (fs : FS) (ds : List FileDiff) : FS :=
  ds.foldl (apply_diff ws) fs

/-- Outcome of the inner prompt loop for a single diff. -/
inductive ReviewAct where
  | acceptOne
  | rejectOne
  | acceptAll
deriving DecidableEq

/-- The inner `while True` prompt of `DiffReviewer.review`, consuming typed
responses.  Exhaustion of input models EOF, which the source maps to `"s"`.
Each response is `.strip().lower()`-ed before the branch tests, in source
order; unmatched input re-prompts.  Returns the action, the unconsumed
responses, and how many prompts were issued for this diff. -/
def promptLoop : List String → ReviewAct × List String × Nat
  | [] => (ReviewAct.rejectOne, [], 1)
  | r :: rest =>
    let resp := pyLower (pyStrip r)
    if resp = "?" || resp = "help" then
      let (a, rem, n) := promptLoop rest
      (a, rem, n + 1)
    else if resp = "d" then
      let (a, rem, n) := promptLoop rest
      (a, rem, n + 1)
    else if resp = "a" || resp = "y" || resp = "yes" || resp = "" then
      (ReviewAct.acceptOne, rest, 1)
    else if resp = "r" || resp = "n" || resp = "no" then
      (ReviewAct.rejectOne, rest, 1)
    else if resp = "a" then
      (ReviewAct.acceptAll, rest, 1)
    else if resp = "s" || resp = "skip" then
      (ReviewAct.rejectOne, rest, 1)
    else
      let (a, rem, n) := promptLoop rest
      (a, rem, n + 1)

/-- The `for i, diff in enumerate(diffset.diffs)` body of
`DiffReviewer.review` in the interactive (non-auto-accept) path.
Returns accepted diffs, rejected diffs, the resulting disk state, and the
total number of prompts issued. -/
def reviewLoop (ws : FPath) : FS → Bool → List FileDiff → List String →
    List FileDiff × List FileDiff × FS × Nat
  | fs, _, [], _ => ([], [], fs, 0)
  | fs, accAll, d :: ds, rs =>
    if accAll then
      let fs1 := apply_diff ws fs d
      let (a, rej, fs2, n) := reviewLoop ws fs1 true ds rs
      (d :: a, rej, fs2, n)
    else
      let (act, rest, n0) := promptLoop rs
      match act with
      | ReviewAct.acceptOne =>
        let fs1 := apply_diff ws fs d
        let (a, rej, fs2, n) := reviewLoop ws fs1 false ds rest
        (d :: a, rej, fs2, n0 + n)
      | ReviewAct.rejectOne =>
        let (a, rej, fs2, n) := reviewLoop ws fs false ds rest
        (a, d :: rej, fs2, n0 + n)
      | ReviewAct.acceptAll =>
        let fs1 := apply_diff ws fs d
        let (a, rej, fs2, n) := reviewLoop ws fs1 true ds rest
        (d :: a, rej, fs2, n0 + n)

/-- `DiffReviewer.review`: auto-accept applies everything without prompting;
otherwise each diff is reviewed interactively. -/
def review (autoAccept : Bool) (ws : FPath) (fs : FS) (ds : DiffSet)
    (responses : List String) : List FileDiff × List FileDiff × FS × Nat :=
  if ds.diffs = [] then ([], [], fs, 0)
  else if autoAccept then (ds.diffs, [], apply_all ws fs ds.diffs, 0)
  else reviewLoop ws fs false ds.diffs responses

/- ── Build plan parser (core.py parse_build_plan) ── -/

/-- A task of a build plan. -/
structure BuildTask where
  agent       : String
  label       : String
  description : String
deriving DecidableEq

/-- A parsed build plan. -/
structure BuildPlan where
  name       : String
  target_dir : String
  stack      : String
  tasks      : List BuildTask
deriving DecidableEq

/-- The names of the agent registry `AGENTS` (agents/__init__.py). -/
def AGENT_NAMES : List String :=
  ["chat", "coder", "debug", "architect", "researcher", "git"]

/-- Attempt the regex tail `\s*(.+?)(?:\n|$)` at offset `k` of `r`: succeeds
when a non-newline character stands at `k`, capturing up to the next newline;
also returns how many characters of `r` the whole tail consumed. -/
def capAt (r : List Char) (k : Nat) : Option (List Char × Nat) :=
  match r.drop k with
  | [] => none
  | c :: t =>
    if c = '\n' then none
    else
      let g := c :: t.takeWhile (fun x => decide (x ≠ '\n'))
      let consumed := k + g.length + (if g.length < (c :: t).length then 1 else 0)
      some (g, consumed)

/-- Greedy `\s*` with backtracking: try the largest whitespace skip first,
then smaller ones, as the regex engine does. -/
def findCap (r : List Char) : Nat → Option (List Char × Nat)
  | 0 => capAt r 0
  | k + 1 =>
    match capAt r (k + 1) with
    | some g => some g
    | none => findCap r k

/-- Match `\s*(.+?)(?:\n|$)` against `r`, returning the captured group and
the number of characters consumed. -/
def tailCapture (r : List Char) : Option (List Char × Nat) :=
  findCap r (r.takeWhile pyIsSpace).length

/-- `re.search("LIT\s*(.+?)(?:\n|$)", text)`: scan for the literal, and on a
failed tail resume the scan one position further, returning the first
successful capture. -/
def searchAfterLit (lit : List Char) : List Char → Option (List Char)
  | [] =>
    if chunkLeads lit [] then (tailCapture (List.drop lit.length [])).map (fun g => g.1)
    else none
  | c :: t =>
    if chunkLeads lit (c :: t) then
      match tailCapture (List.drop lit.length (c :: t)) with
      | some g => some g.1
      | none => searchAfterLit lit t
    else searchAfterLit lit t

/-- A regex word character, `\w`. -/
def isWordChar (c : Char) : Bool := c.isAlphanum || c = '_'

/-- Match the task pattern `\[(\w+)\]\s+([A-Z]\d+):\s*(.+?)(?:\n|$)` (with
`re.I`) at the head of `r`.  Returns the three captured groups and the
total number of characters consumed. -/
def matchTaskAt (r : List Char) : Option ((List Char × List Char × List Char) × Nat) :=
  match r with
  | '[' :: rest =>
    let w := rest.takeWhile isWordChar
    if w = [] then none
    else
      match rest.drop w.length with
      | ']' :: rest2 =>
        let sp := rest2.takeWhile pyIsSpace
        if sp = [] then none
        else
          match rest2.drop sp.length with
          | c :: rest3 =>
            if c.isAlpha then
              let ds := rest3.takeWhile Char.isDigit
              if ds = [] then none
              else
                match rest3.drop ds.length with
                | ':' :: rest4 =>
                  match tailCapture rest4 with
                  | some (g, len4) =>
                    some ((w, c :: ds, g),
                          1 + w.length + 1 + sp.length + 1 + ds.length + 1 + len4)
                  | none => none
                | _ => none
            else none
          | [] => none
      | _ => none
  | _ => none

/-- `re.finditer` over the task pattern, keeping only tasks whose lowercased
agent name is in the registry (unrecognized names are dropped but the match
is still consumed).  `fuel` bounds the scan; it starts at the text length. -/
def findTasksAux : Nat → List Char → List BuildTask
  | 0, _ => []
  | _, [] => []
  | fuel + 1, r =>
    match matchTaskAt r with
    | some ((w, lab, g), consumed) =>
      let agent := String.mk (w.map Char.toLower)
      let keep :=
        if agent ∈ AGENT_NAMES then
          [BuildTask.mk agent (String.mk lab) (pyStrip (String.mk g))]
        else []
      keep ++ findTasksAux fuel (r.drop consumed)
    | none =>
      match r with
      | [] => []
      | _ :: t => findTasksAux fuel t

/-- All tasks extracted from the text. -/
def findTasks (tl : List Char) : List BuildTask :=
  findTasksAux tl.length tl

/-- `parse_build_plan`: requires the `BUILD PLAN:` header, extracts the three
labeled fields with their source fallbacks, and returns a plan only when at
least one task was extracted. -/
def parse_build_plan (text : String) : Option BuildPlan :=
  let tl := text.data
  if occursIn "BUILD PLAN:".data tl then
    let name :=
      match searchAfterLit "BUILD PLAN:".data tl with
      | some g => pyStrip (String.mk g)
      | none => "project"
    let target :=
      match searchAfterLit "TARGET DIR:".data tl with
      | some g => pyStrip (String.mk g)
      | none => "."
    let stack :=
      match searchAfterLit "STACK:".data tl with
      | some g => pyStrip (String.mk g)
      | none => "Python"
    let tasks := findTasks tl
    if tasks = [] then none
    else some { name := name, target_dir := target, stack := stack, tasks := tasks }
  else none

/- ── Memory (core.py) and its config validation (config.py) ── -/

/-- A role-tagged message. -/
structure Msg where
  role    : String
  content : String
deriving DecidableEq

/-- Python `lst[-k:]`: for `k = 0` this is the whole list (`lst[0:]`), for
`k ≥ 1` the last `k` elements. -/
def pyTakeLast (k : Nat) (l : List Msg) : List Msg :=
  if k = 0 then l else l.drop (l.length - k)

/-- `Memory.add`: append, then truncate to the last `limit` messages when
the bound is exceeded. -/
def memAdd (limit : Nat) (msgs : List Msg) (m : Msg) : List Msg :=
  let ms := msgs ++ [m]
  if limit < ms.length then pyTakeLast limit ms else ms

/-- A whole sequence of `Memory.add` calls starting from an empty log. -/
def memFold (limit : Nat) (ms : List Msg) : List Msg :=
  ms.foldl (memAdd limit) []

/-- The `_RULES` validation for `chat_history_limit` in config.py:
`ZenConfig.set` accepts only values in `[1, 200]`. -/
def validChatHistoryLimit (v : Int) : Bool :=
  1 ≤ v && v ≤ 200

/- ── Orchestrator loop (core.py ZenCore._run_agent) ── -/

/-- The constant `_MAX_ITERS = 24` from core.py. -/
def MAX_ITERS : Nat := 24

/-- The outcome of one `client.chat.complete` call, abstracting the model
backend: an unrecoverable exception, a tool-call turn (with the number of
requested calls), or a final-text turn. -/
inductive ModelOutcome where
  | raiseExc (msg : String)
  | toolCalls (n : Nat)
  | finalText (s : String)

/-- The stream events `_run_agent` yields. -/
inductive Chunk where
  | toolCallC
  | toolResultC
  | delta (s : String)
  | diffReady
  | doneC (err : Option String)
deriving DecidableEq

/-- How the `for _iter in range(_MAX_ITERS)` loop ends: a final text (or
falling out of the bound with empty text), or an exception from the model
call. -/
inductive LoopExit where
  | okExit (finalText : String)
  | errExit (msg : String)
deriving DecidableEq

/-- The iteration loop: `fuel` is the remaining range of `_iter`, `i` indexes
the model calls.  Returns the chunks yielded inside the loop, the number of
`complete` calls made, and how the loop ended. -/
def runLoop (responses : Nat → ModelOutcome) : Nat → Nat → List Chunk × Nat × LoopExit
  | _, 0 => ([], 0, LoopExit.okExit "")
  | i, fuel + 1 =>
    match responses i with
    | ModelOutcome.raiseExc m => ([], 1, LoopExit.errExit m)
    | ModelOutcome.toolCalls n =>
      let evs := (List.replicate n [Chunk.toolCallC, Chunk.toolResultC]).flatten
      let (rest, c, ex) := runLoop responses (i + 1) fuel
      (evs ++ rest, c + 1, ex)
    | ModelOutcome.finalText s => ([Chunk.delta s], 1, LoopExit.okExit s)

/-- The full event stream of `_run_agent`: the loop's chunks, then on an
exception a single error completion, otherwise an optional `diff_ready`
followed by the success completion.  `staged` abstracts the tracker's
accumulated pending diffs at loop exit. -/
def runAgentEvents (useTracker : Bool) (staged : List FileDiff)
    (responses : Nat → ModelOutcome) : List Chunk :=
  let r := runLoop responses 0 MAX_ITERS
  match r.2.2 with
  | LoopExit.errExit m => r.1 ++ [Chunk.doneC (some m)]
  | LoopExit.okExit _ =>
    r.1 ++ (if useTracker && !staged.isEmpty then [Chunk.diffReady] else [])
        ++ [Chunk.doneC none]

/-- The number of `client.chat.complete` calls one `_run_agent` invocation
makes. -/
def runAgentCalls (responses : Nat → ModelOutcome) : Nat :=
  (runLoop responses 0 MAX_ITERS).2.1

/- ── Build executor (core.py ZenCore.execute_build) ── -/

/-- The slice of `ZenConfig` state the executor mutates: the active
workspace root and the set of directories that exist. -/
structure Cfg where
  workspace : String
  dirs      : List String
deriving DecidableEq

/-- `cfg.set_workspace`. -/
def Cfg.set_workspace (c : Cfg) (p : String) : Cfg :=
  { c with workspace := p }

/-- Path join `original_ws / plan.target_dir`. -/
def joinDir (ws sub : String) : String := ws ++ "/" ++ sub

/-- Sequential task execution; `failAt i` is the exception (if any) task `i`
raises, which propagates out of the task loop. -/
def runTasksFrom (failAt : Nat → Option String) : Nat → List BuildTask → Except String Unit
  | _, [] => Except.ok ()
  | i, _ :: ts =>
    match failAt i with
    | some e => Except.error e
    | none => runTasksFrom failAt (i + 1) ts

/-- What `execute_build` leaves behind. -/
structure BuildOutcome where
  cfgFinal : Cfg
  activeWs : String
  result   : Except String Unit

/-- `ZenCore.execute_build` on a plan: for a non-root target directory,
create it if missing and make it the workspace, run the tasks inside a
`try`, and in the `finally` restore the original workspace root whether or
not an exception escaped. -/
def execute_build (cfg0 : Cfg) (plan : BuildPlan) (failAt : Nat → Option String) :
    BuildOutcome :=
  let originalWs := cfg0.workspace
  let step :=
    if plan.target_dir ≠ "" ∧ plan.target_dir ≠ "." then
      let aw := joinDir originalWs plan.target_dir
      let dirs1 := if aw ∈ cfg0.dirs then cfg0.dirs else cfg0.dirs ++ [aw]
      ({ workspace := aw, dirs := dirs1 }, aw)
    else (cfg0, originalWs)
  let body := runTasksFrom failAt 0 plan.tasks
  { cfgFinal := step.1.set_workspace originalWs,
    activeWs := step.2,
    result := body }

/- ── Helper lemmas ── -/

/-- A literal that does not occur as a substring is never found by the
labeled-line search. -/
theorem searchAfterLit_none (pat : List Char) :
    ∀ l, occursIn pat l = false → searchAfterLit pat l = none := by
  intro l
  induction l with
  | nil =>
    intro h
    simp only [occursIn] at h
    simp [searchAfterLit, h]
  | cons c t ih =>
    intro h
    simp only [occursIn, Bool.or_eq_false_iff] at h
    simp [searchAfterLit, h.1, ih h.2]

/-- Reading back a just-written file yields the written content. -/
theorem read_writeFile_self (fs : FS) (p : FPath) (c : String) :
    (fs.writeFile p c).read p = some c := by
  simp [FS.read, FS.writeFile, List.find?]

/-- After removing the file at `p`, reading `p` yields nothing. -/
theorem read_removeFile_self (fs : FS) (p : FPath) :
    (fs.removeFile p).read p = none := by
  simp only [FS.read, FS.removeFile]
  have h : List.find? (fun e => decide (e.1 = p))
      (List.filter (fun e : FPath × String => decide (e.1 ≠ p)) fs.files) = none := by
    rw [List.find?_eq_none]
    intro x hx
    have hmem := List.of_mem_filter hx
    simp at hmem
    simp [hmem]
  rw [h]
  rfl

/-- After removing the tree rooted at `p`, reading the file `p` yields
nothing. -/
theorem read_rmtree_self (fs : FS) (p : FPath) :
    (fs.rmtree p).read p = none := by
  simp only [FS.read, FS.rmtree]
  have hlead : listLeads p p = true := by
    induction p with
    | nil => rfl
    | cons a as ih => simp [listLeads, ih]
  have h : List.find? (fun e => decide (e.1 = p))
      (List.filter (fun e : FPath × String => !(listLeads p e.1)) fs.files) = none := by
    rw [List.find?_eq_none]
    intro x hx
    have hmem := List.of_mem_filter hx
    simp only [Bool.not_eq_true'] at hmem
    intro hdec
    simp at hdec
    rw [hdec] at hmem
    rw [hlead] at hmem
    exact Bool.true_eq_false.mp hmem
  rw [h]
  rfl

/-- Every nonempty strict initial segment of `p` is in its parent chain. -/
theorem mem_parentChain (p : FPath) (k : Nat) (h1 : 1 ≤ k) (h2 : k < p.length) :
    p.take k ∈ parentChain p := by
  simp only [parentChain, List.mem_filterMap]
  exact ⟨k, by simpa using h2, by simp [h1]⟩

/-- For a positive limit, one `Memory.add` leaves exactly the most recent
messages, expressed as a suffix of the appended log. -/
theorem memAdd_eq_drop (limit : Nat) (h : 1 ≤ limit) (msgs : List Msg) (m : Msg) :
    memAdd limit msgs m = (msgs ++ [m]).drop ((msgs ++ [m]).length - limit) := by
  simp only [memAdd, pyTakeLast]
  by_cases hlt : limit < (msgs ++ [m]).length
  · rw [if_pos hlt, if_neg (by omega)]
  · rw [if_neg hlt]
    have hz : (msgs ++ [m]).length - limit = 0 := by omega
    rw [hz, List.drop_zero]

/-- Folding `Memory.add` over a message sequence keeps exactly the suffix
that fits the limit. -/
theorem memFold_drop_aux (limit : Nat) (h : 1 ≤ limit) :
    ∀ (t a : List Msg), a.length ≤ limit →
      t.foldl (memAdd limit) a = (a ++ t).drop ((a ++ t).length - limit) := by
  intro t
  induction t with
  | nil =>
    intro a ha
    have hz : a.length - limit = 0 := by omega
    simp only [List.foldl_nil, List.append_nil, hz, List.drop_zero]
  | cons m t ih =>
    intro a ha
    rw [List.foldl_cons]
    have hlen : (memAdd limit a m).length ≤ limit := by
      rw [memAdd_eq_drop limit h]
      simp only [List.length_drop]
      omega
    rw [ih (memAdd limit a m) hlen, memAdd_eq_drop limit h]
    have hd1 : (a ++ [m]).length - limit ≤ (a ++ [m]).length := Nat.sub_le _ _
    have harr : a ++ [m] ++ t = a ++ m :: t := by simp
    rw [← List.drop_append_of_le_length hd1, List.drop_drop, ← harr]
    congr 1
    simp only [List.length_drop, List.length_append, List.length_cons, List.length_nil]
    omega

/-- The iteration loop never makes more model calls than its fuel. -/
theorem runLoop_calls_le (responses : Nat → ModelOutcome) :
    ∀ (fuel i : Nat), (runLoop responses i fuel).2.1 ≤ fuel := by
  intro fuel
  induction fuel with
  | zero => intro i; simp [runLoop]
  | succ f ih =>
    intro i
    simp only [runLoop]
    cases responses i with
    | raiseExc m => simp
    | toolCalls n =>
      rcases hrl : runLoop responses (i + 1) f with ⟨rest, c, ex⟩
      have hc := ih (i + 1)
      rw [hrl] at hc
      simp only [hrl]
      simpa using Nat.succ_le_succ hc
    | finalText s => simp

/-- If the model raises on call `k` after `k` tool-call turns, the loop
stops with an error exit after exactly `k + 1` calls, having yielded only
tool-call and tool-result chunks. -/
theorem runLoop_raise (responses : Nat → ModelOutcome) (m : String) :
    ∀ (k i fuel : Nat), k < fuel →
      (∀ j, j < k → ∃ n, responses (i + j) = ModelOutcome.toolCalls n) →
      responses (i + k) = ModelOutcome.raiseExc m →
      ∃ evs, runLoop responses i fuel = (evs, k + 1, LoopExit.errExit m) ∧
        ∀ c ∈ evs, c = Chunk.toolCallC ∨ c = Chunk.toolResultC := by
  intro k
  induction k with
  | zero =>
    intro i fuel hf hpre hraise
    obtain ⟨f, rfl⟩ : ∃ f, fuel = f + 1 := ⟨fuel - 1, by omega⟩
    simp only [Nat.add_zero] at hraise
    refine ⟨[], ?_, by simp⟩
    simp [runLoop, hraise]
  | succ k ih =>
    intro i fuel hf hpre hraise
    obtain ⟨f, rfl⟩ : ∃ f, fuel = f + 1 := ⟨fuel - 1, by omega⟩
    obtain ⟨n, hn⟩ := hpre 0 (Nat.succ_pos k)
    rw [Nat.add_zero] at hn
    have hpre2 : ∀ j, j < k → ∃ n2, responses (i + 1 + j) = ModelOutcome.toolCalls n2 := by
      intro j hj
      have hj2 := hpre (j + 1) (by omega)
      rwa [show i + (j + 1) = i + 1 + j by omega] at hj2
    have hraise2 : responses (i + 1 + k) = ModelOutcome.raiseExc m := by
      rwa [show i + (k + 1) = i + 1 + k by omega] at hraise
    obtain ⟨evs1, hrl, hmem⟩ := ih (i + 1) f (by omega) hpre2 hraise2
    refine ⟨(List.replicate n [Chunk.toolCallC, Chunk.toolResultC]).flatten ++ evs1, ?_, ?_⟩
    · simp only [runLoop, hn, hrl]
    · intro c hc
      rcases List.mem_append.mp hc with hc1 | hc2
      · rcases List.mem_flatten.mp hc1 with ⟨l, hl, hcl⟩
        rcases List.eq_of_mem_replicate hl with rfl
        simpa using hcl
      · exact hmem c hc2

/- ── Claim theorems ── -/

/-- C1 counterexample: with an active tracker (empty pending set) and the file
`a.txt` on disk, `file_delete` removes the file from disk, appends nothing to
the tracker's diff set, and returns a real success — refuting the claim that
every write/patch/delete issued under an active tracker leaves the disk
unchanged and is captured as a staged File Diff. -/
theorem c1_delete_bypasses_tracker_cex :
    (let s0 : SysState :=
       { fs := ⟨[(["a.txt"], "x")], []⟩,
         tracker := some { workspace := [], pending := ⟨[], "coder", "task"⟩,
                           active := true } }
     (file_delete [] s0 ["a.txt"]).1.fs.read ["a.txt"] = none ∧
     s0.fs.read ["a.txt"] = some "x" ∧
     (file_delete [] s0 ["a.txt"]).1.tracker = s0.tracker ∧
     (file_delete [] s0 ["a.txt"]).2.success = true) := by
  decide

/-- C1 (amended): while a tracker is active, `file_write` and `file_patch`
(the latter when its target exists and `old_str` occurs) leave the disk
unchanged, return a synthetic staged-success result, and append one File
Diff to the tracker's pending Diff Set; `file_delete`, however, never
consults the tracker — it leaves the tracker untouched and removes the
target from disk immediately. -/
theorem c1_staging_write_patch (ws : FPath) (s : SysState) (tr : DiffTracker)
    (path pPatch pDel : FPath) (content mode old_str new_str contentP : String)
    (hs : s.tracker = some tr) (ha : tr.active = true)
    (hread : s.fs.read (ws ++ pPatch) = some contentP)
    (hocc : strOccurs old_str contentP = true)
    (hdel : (s.fs.read (ws ++ pDel)).isSome = true) :
    ((file_write ws s path content mode).1.fs = s.fs ∧
     (file_write ws s path content mode).2.success = true ∧
     ("staged", "True") ∈ (file_write ws s path content mode).2.metadata ∧
     (∃ d : FileDiff, d.is_delete = false ∧
        (file_write ws s path content mode).1.tracker =
          some { tr with pending := tr.pending.add d })) ∧
    ((file_patch ws s pPatch old_str new_str).1.fs = s.fs ∧
     (file_patch ws s pPatch old_str new_str).2.success = true ∧
     ("staged", "True") ∈ (file_patch ws s pPatch old_str new_str).2.metadata ∧
     (∃ d : FileDiff, d.new_content = strReplaceFirst contentP old_str new_str ∧
        (file_patch ws s pPatch old_str new_str).1.tracker =
          some { tr with pending := tr.pending.add d })) ∧
    ((file_delete ws s pDel).1.tracker = s.tracker ∧
     (file_delete ws s pDel).1.fs.read (ws ++ pDel) = none) := by
  refine ⟨⟨?_, ?_, ?_, ?_⟩, ⟨?_, ?_, ?_, ?_⟩, ?_, ?_⟩
  · simp [file_write, hs, ha, DiffTracker.intercept_write]
  · simp [file_write, hs, ha, DiffTracker.intercept_write]
  · simp [file_write, hs, ha, DiffTracker.intercept_write]
  · refine ⟨⟨path, (s.fs.read (tr.workspace ++ path)).getD "",
        (if mode = "append" then ((s.fs.read (tr.workspace ++ path)).getD "") ++ content
         else content),
        (s.fs.read (tr.workspace ++ path)).isNone, false⟩, rfl, ?_⟩
    simp [file_write, hs, ha, DiffTracker.intercept_write]
  · simp [file_patch, hread, hocc, hs, ha, DiffTracker.intercept_write]
  · simp [file_patch, hread, hocc, hs, ha, DiffTracker.intercept_write]
  · simp [file_patch, hread, hocc, hs, ha, DiffTracker.intercept_write]
  · refine ⟨⟨pPatch, (s.fs.read (tr.workspace ++ pPatch)).getD "",
        strReplaceFirst contentP old_str new_str,
        (s.fs.read (tr.workspace ++ pPatch)).isNone, false⟩, rfl, ?_⟩
    simp [file_patch, hread, hocc, hs, ha, DiffTracker.intercept_write]
  · simp only [file_delete]
    by_cases hd : (ws ++ pDel) ∈ s.fs.dirs
    · simp [hd]
    · simp [hd, hdel]
  · simp only [file_delete]
    by_cases hd : (ws ++ pDel) ∈ s.fs.dirs
    · simp only [hd, if_true]
      exact read_rmtree_self _ _
    · simp only [hd, if_false, hdel, if_true]
      exact read_removeFile_self _ _

/-- C1 witness: the amended staging theorem at a concrete state — tracker
active over files `f.txt` (content "abc") and `g.txt`, a fresh write to
`new.txt`, a patch of "b" to "B" in `f.txt`, and a delete of `g.txt`. -/
theorem c1_staging_write_patch_witness :
    (let s0 : SysState :=
       { fs := ⟨[(["f.txt"], "abc"), (["g.txt"], "xyz")], []⟩,
         tracker := some { workspace := [], pending := ⟨[], "coder", "task"⟩,
                           active := true } }
     ((file_write [] s0 ["new.txt"] "hello" "write").1.fs = s0.fs ∧
      (file_write [] s0 ["new.txt"] "hello" "write").2.success = true ∧
      ("staged", "True") ∈ (file_write [] s0 ["new.txt"] "hello" "write").2.metadata ∧
      (∃ d : FileDiff, d.is_delete = false ∧
         (file_write [] s0 ["new.txt"] "hello" "write").1.tracker =
           some { workspace := [], pending := DiffSet.add ⟨[], "coder", "task"⟩ d,
                  active := true } )) ∧
     ((file_patch [] s0 ["f.txt"] "b" "B").1.fs = s0.fs ∧
      (file_patch [] s0 ["f.txt"] "b" "B").2.success = true ∧
      ("staged", "True") ∈ (file_patch [] s0 ["f.txt"] "b" "B").2.metadata ∧
      (∃ d : FileDiff, d.new_content = strReplaceFirst "abc" "b" "B" ∧
         (file_patch [] s0 ["f.txt"] "b" "B").1.tracker =
           some { workspace := [], pending := DiffSet.add ⟨[], "coder", "task"⟩ d,
                  active := true } )) ∧
     ((file_delete [] s0 ["g.txt"]).1.tracker = s0.tracker ∧
      (file_delete [] s0 ["g.txt"]).1.fs.read ["g.txt"] = none)) :=
  c1_staging_write_patch []
    { fs := ⟨[(["f.txt"], "abc"), (["g.txt"], "xyz")], []⟩,
      tracker := some { workspace := [], pending := ⟨[], "coder", "task"⟩,
                        active := true } }
    { workspace := [], pending := ⟨[], "coder", "task"⟩, active := true }
    ["new.txt"] ["f.txt"] ["g.txt"] "hello" "write" "b" "B" "abc"
    rfl rfl (by decide) (by decide) (by decide)

/-- C2: the engine's interactive reviewer cannot trigger accept-all.  With
two staged diffs and the reviewer typing "A" (the documented accept-all key)
at the first prompt, the lowercased response hits the single-accept branch:
only the first diff is accepted, the reviewer is prompted again (two prompts
in total), and the second diff ends rejected at EOF instead of being
auto-accepted — the `accept_all` branch of `DiffReviewer.review` is
unreachable because the input is `.lower()`-ed and the single-accept test
for "a" runs first. -/
theorem c2_accept_all_dead_eval :
    reviewLoop [] ⟨[], []⟩ false
      [⟨["a.txt"], "", "x", true, false⟩, ⟨["b.txt"], "", "y", true, false⟩]
      ["A"] =
      ([⟨["a.txt"], "", "x", true, false⟩], [⟨["b.txt"], "", "y", true, false⟩],
       ⟨[(["a.txt"], "x")], []⟩, 2) := by
  decide

/-- C3: accepting a non-deletion File Diff makes the target's content exactly
`new_content` and puts every proper parent of the target among the
directories; accepting a deletion diff removes an existing target, and is a
no-op on an absent target. -/
theorem c3_accept_apply (ws : FPath) (fs : FS) (d dDel dAbs : FileDiff)
    (h1 : d.is_delete = false)
    (h2 : dDel.is_delete = true)
    (h3 : (fs.read (ws ++ dDel.path)).isSome = true)
    (h4 : dAbs.is_delete = true)
    (h5 : fs.read (ws ++ dAbs.path) = none) :
    (apply_diff ws fs d).read (ws ++ d.path) = some d.new_content ∧
    (∀ k, k < (ws ++ d.path).length → 1 ≤ k →
       (ws ++ d.path).take k ∈ (apply_diff ws fs d).dirs) ∧
    (apply_diff ws fs dDel).read (ws ++ dDel.path) = none ∧
    apply_diff ws fs dAbs = fs := by
  refine ⟨?_, ?_, ?_, ?_⟩
  · simp only [apply_diff, h1, Bool.false_eq_true, if_false]
    exact read_writeFile_self _ _ _
  · intro k hk h1k
    simp only [apply_diff, h1, Bool.false_eq_true, if_false, FS.writeFile,
      FS.mkdirParents]
    exact List.mem_append_right _ (mem_parentChain _ _ h1k hk)
  · simp only [apply_diff, h2, if_true, h3]
    exact read_removeFile_self _ _
  · simp [apply_diff, h4, h5]

/-- C3 witness: the accept-apply theorem at a concrete disk — a new file
`w/a/b.txt`, deleting the present `w/del.txt`, and deleting the absent
`w/gone.txt`. -/
theorem c3_accept_apply_witness :
    (apply_diff ["w"] ⟨[(["w", "del.txt"], "z")], []⟩
        ⟨["a", "b.txt"], "", "new", true, false⟩).read ["w", "a", "b.txt"] =
      some "new" ∧
    (∀ k, k < (["w"] ++ ["a", "b.txt"]).length → 1 ≤ k →
       (["w"] ++ ["a", "b.txt"]).take k ∈
         (apply_diff ["w"] ⟨[(["w", "del.txt"], "z")], []⟩
           ⟨["a", "b.txt"], "", "new", true, false⟩).dirs) ∧
    (apply_diff ["w"] ⟨[(["w", "del.txt"], "z")], []⟩
        ⟨["del.txt"], "z", "", false, true⟩).read ["w", "del.txt"] = none ∧
    apply_diff ["w"] ⟨[(["w", "del.txt"], "z")], []⟩
        ⟨["gone.txt"], "", "", false, true⟩ = ⟨[(["w", "del.txt"], "z")], []⟩ :=
  c3_accept_apply ["w"] ⟨[(["w", "del.txt"], "z")], []⟩
    ⟨["a", "b.txt"], "", "new", true, false⟩
    ⟨["del.txt"], "z", "", false, true⟩
    ⟨["gone.txt"], "", "", false, true⟩
    rfl rfl (by decide) rfl (by decide)

/-- C4: on the exact plan text from the spec, the parser yields name "Foo",
target ".", stack "Go", and the two tasks in order — `coder`/C1/"do X" then
`debug`/D1/"fix". -/
theorem c4_parse_plan_concrete :
    parse_build_plan
        "BUILD PLAN: Foo\nTARGET DIR: .\nSTACK: Go\n[coder] C1: do X\n[debug] D1: fix" =
      some { name := "Foo", target_dir := ".", stack := "Go",
             tasks := [{ agent := "coder", label := "C1", description := "do X" },
                       { agent := "debug", label := "D1", description := "fix" }] } := by
  decide

/-- C5 counterexample: a plan text with a header and one valid task but no
STACK line parses with stack fallback "Python", not the claimed
"unspecified". -/
theorem c5_stack_fallback_cex :
    parse_build_plan "BUILD PLAN: Foo\n[coder] C1: do X" =
      some { name := "Foo", target_dir := ".", stack := "Python",
             tasks := [{ agent := "coder", label := "C1", description := "do X" }] } ∧
    ("Python" : String) ≠ "unspecified" := by
  exact ⟨by decide, by decide⟩

/-- C5 (amended): for every text with the plan header and at least one valid
task line, a missing TARGET DIR label falls back to ".", a missing STACK
label falls back to "Python" (not "unspecified"), and a header whose name
capture fails falls back to "project". -/
theorem c5_missing_label_fallbacks (text : String)
    (h1 : occursIn "BUILD PLAN:".data text.data = true)
    (h2 : findTasks text.data ≠ [])
    (h3 : occursIn "TARGET DIR:".data text.data = false)
    (h4 : occursIn "STACK:".data text.data = false)
    (h5 : searchAfterLit "BUILD PLAN:".data text.data = none) :
    parse_build_plan text =
      some { name := "project", target_dir := ".", stack := "Python",
             tasks := findTasks text.data } := by
  have hT := searchAfterLit_none _ _ h3
  have hS := searchAfterLit_none _ _ h4
  simp only [parse_build_plan, h1, h5, hT, hS, if_true]
  rw [if_neg h2]

/-- C5 witness: on `"[coder] C1: do X\nBUILD PLAN:"` — header present but its
capture fails, no TARGET DIR, no STACK — the parser returns the fallback
plan. -/
theorem c5_missing_label_fallbacks_witness :
    parse_build_plan "[coder] C1: do X\nBUILD PLAN:" =
      some { name := "project", target_dir := ".", stack := "Python",
             tasks := findTasks "[coder] C1: do X\nBUILD PLAN:".data } :=
  c5_missing_label_fallbacks "[coder] C1: do X\nBUILD PLAN:"
    (by decide) (by decide) (by decide) (by decide) (by decide)

/-- C6: for every history limit accepted by the config validation rule
(`chat_history_limit` is constrained to `[1, 200]` by `ZenConfig.set`) and
every sequence of `Memory.add` calls, the stored messages never exceed the
limit, and what is retained is exactly the most recent messages in their
original relative order — the oldest are evicted first. -/
theorem c6_memory_bound (limit : Nat) (ms : List Msg)
    (h : validChatHistoryLimit limit = true) :
    (memFold limit ms).length ≤ limit ∧
    memFold limit ms = ms.drop (ms.length - limit) := by
  have h1 : 1 ≤ limit := by
    simp only [validChatHistoryLimit, Bool.and_eq_true, decide_eq_true_eq] at h
    exact_mod_cast h.1
  have hm := memFold_drop_aux limit h1 ms [] (by simp)
  simp only [List.nil_append] at hm
  refine ⟨?_, hm⟩
  rw [memFold, hm]
  simp only [List.length_drop]
  omega

/-- C6 witness: with limit 2, adding three messages retains exactly the two
most recent, in order. -/
theorem c6_memory_bound_witness :
    (memFold 2 [⟨"user", "a"⟩, ⟨"assistant", "b"⟩, ⟨"user", "c"⟩]).length ≤ 2 ∧
    memFold 2 [⟨"user", "a"⟩, ⟨"assistant", "b"⟩, ⟨"user", "c"⟩] =
      List.drop ([⟨"user", "a"⟩, ⟨"assistant", "b"⟩, (⟨"user", "c"⟩ : Msg)].length - 2)
        [⟨"user", "a"⟩, ⟨"assistant", "b"⟩, ⟨"user", "c"⟩] :=
  c6_memory_bound 2 [⟨"user", "a"⟩, ⟨"assistant", "b"⟩, ⟨"user", "c"⟩] (by decide)

/-- C7: a single orchestrator invocation never makes more than `_MAX_ITERS`
(24) model-request iterations, whatever the model answers — including a
model that requests tool calls on every iteration forever. -/
theorem c7_iteration_bound (responses : Nat → ModelOutcome) :
    runAgentCalls responses ≤ MAX_ITERS :=
  runLoop_calls_le responses MAX_ITERS 0

/-- C8: if the model raises an unrecoverable exception on some call (after
any number of tool-call turns within the bound), the event stream ends with
exactly one completion chunk, its error populated with that exception, no
chunk follows it, no earlier chunk is a completion, and the loop made
exactly `k + 1` model calls — it did not retry. -/
theorem c8_error_completion (useTracker : Bool) (staged : List FileDiff)
    (responses : Nat → ModelOutcome) (m : String) (k : Nat)
    (hk : k < MAX_ITERS)
    (hpre : ∀ j, j < k → ∃ n, responses j = ModelOutcome.toolCalls n)
    (hraise : responses k = ModelOutcome.raiseExc m) :
    (∃ pre, runAgentEvents useTracker staged responses = pre ++ [Chunk.doneC (some m)] ∧
       ∀ c ∈ pre, ∀ e, c ≠ Chunk.doneC e) ∧
    runAgentCalls responses = k + 1 := by
  have hpre0 : ∀ j, j < k → ∃ n, responses (0 + j) = ModelOutcome.toolCalls n := by
    intro j hj
    simpa using hpre j hj
  have hraise0 : responses (0 + k) = ModelOutcome.raiseExc m := by simpa using hraise
  obtain ⟨evs, hrl, hmem⟩ := runLoop_raise responses m k 0 MAX_ITERS hk hpre0 hraise0
  constructor
  · refine ⟨evs, ?_, ?_⟩
    · simp only [runAgentEvents, hrl]
    · intro c hc e
      rcases hmem c hc with h | h <;> rw [h] <;> intro hbad <;> cases hbad
  · simp only [runAgentCalls, hrl]

/-- C8 witness: a model that raises on its very first call produces exactly
the single error completion and one model call. -/
theorem c8_error_completion_witness :
    (∃ pre, runAgentEvents false [] (fun _ => ModelOutcome.raiseExc "boom") =
        pre ++ [Chunk.doneC (some "boom")] ∧
      ∀ c ∈ pre, ∀ e, c ≠ Chunk.doneC e) ∧
    runAgentCalls (fun _ => ModelOutcome.raiseExc "boom") = 0 + 1 :=
  c8_error_completion false [] (fun _ => ModelOutcome.raiseExc "boom") "boom" 0
    (by decide) (fun j hj => absurd hj (Nat.not_lt_zero j)) rfl

/-- C9: running a plan with a non-root target directory makes
`original/target` the active workspace for task execution, records that
directory as created, and — for every task outcome function, including ones
that raise — the `finally` restores the original workspace root. -/
theorem c9_workspace_restored (cfg0 : Cfg) (plan : BuildPlan)
    (failAt : Nat → Option String)
    (h1 : plan.target_dir ≠ "") (h2 : plan.target_dir ≠ ".") :
    (execute_build cfg0 plan failAt).cfgFinal.workspace = cfg0.workspace ∧
    (execute_build cfg0 plan failAt).activeWs = joinDir cfg0.workspace plan.target_dir ∧
    (execute_build cfg0 plan failAt).activeWs ∈
      (execute_build cfg0 plan failAt).cfgFinal.dirs := by
  simp only [execute_build, Cfg.set_workspace]
  rw [if_pos ⟨h1, h2⟩]
  by_cases hd : joinDir cfg0.workspace plan.target_dir ∈ cfg0.dirs <;> simp [hd]

/-- C9 witness: a one-task plan into the missing subdirectory `sub` whose
task raises — the workspace still ends restored to "root" and `root/sub`
was created and active. -/
theorem c9_workspace_restored_witness :
    (execute_build ⟨"root", []⟩ ⟨"proj", "sub", "Go", [⟨"coder", "C1", "x"⟩]⟩
        (fun _ => some "boom")).cfgFinal.workspace = Cfg.workspace ⟨"root", []⟩ ∧
    (execute_build ⟨"root", []⟩ ⟨"proj", "sub", "Go", [⟨"coder", "C1", "x"⟩]⟩
        (fun _ => some "boom")).activeWs = joinDir "root" "sub" ∧
    (execute_build ⟨"root", []⟩ ⟨"proj", "sub", "Go", [⟨"coder", "C1", "x"⟩]⟩
        (fun _ => some "boom")).activeWs ∈
      (execute_build ⟨"root", []⟩ ⟨"proj", "sub", "Go", [⟨"coder", "C1", "x"⟩]⟩
        (fun _ => some "boom")).cfgFinal.dirs :=
  c9_workspace_restored ⟨"root", []⟩ ⟨"proj", "sub", "Go", [⟨"coder", "C1", "x"⟩]⟩
    (fun _ => some "boom") (by decide) (by decide)

/-- C10: a `file_patch` call whose target file does not exist, or whose
`old_str` does not occur in the target's content, returns a failure result
and has no effect — the whole tool state (disk and tracker, hence any
pending Diff Set) is unchanged. -/
theorem c10_patch_failure_no_effect (ws : FPath) (s : SysState)
    (pMiss pHit : FPath) (old_str new_str c : String)
    (h1 : s.fs.read (ws ++ pMiss) = none)
    (h2 : s.fs.read (ws ++ pHit) = some c)
    (h3 : strOccurs old_str c = false) :
    (file_patch ws s pMiss old_str new_str).1 = s ∧
    (file_patch ws s pMiss old_str new_str).2.success = false ∧
    (file_patch ws s pHit old_str new_str).1 = s ∧
    (file_patch ws s pHit old_str new_str).2.success = false := by
  refine ⟨?_, ?_, ?_, ?_⟩ <;> simp [file_patch, h1, h2, h3]

/-- C10 witness: patching the missing `none.txt` and patching `f.txt`
(content "abc") with the absent needle "zz" both fail and leave the state —
including the active tracker's empty pending set — untouched. -/
theorem c10_patch_failure_no_effect_witness :
    (let s0 : SysState :=
       { fs := ⟨[(["f.txt"], "abc")], []⟩,
         tracker := some { workspace := [], pending := ⟨[], "coder", "task"⟩,
                           active := true } }
     (file_patch [] s0 ["none.txt"] "zz" "Q").1 = s0 ∧
     (file_patch [] s0 ["none.txt"] "zz" "Q").2.success = false ∧
     (file_patch [] s0 ["f.txt"] "zz" "Q").1 = s0 ∧
     (file_patch [] s0 ["f.txt"] "zz" "Q").2.success = false) :=
  c10_patch_failure_no_effect []
    { fs := ⟨[(["f.txt"], "abc")], []⟩,
      tracker := some { workspace := [], pending := ⟨[], "coder", "task"⟩,
                        active := true } }
    ["none.txt"] ["f.txt"] "zz" "Q" "abc" (by decide) (by decide) (by decide)
